import Mathlib

/-!
Verification of the WHO health-data ETL pipeline
(`extract.py`, `transform.py`, `load.py`, `main.py`, `utils/http.py`).

The embedding models raw API records, the pandas-based transform, the
retrying HTTP fetcher, the paginating extractor with its checkpoint
writes, the transactional loader, and the orchestrator.  Machine floats
are modelled as rationals (the code only parses and compares them),
database and network effects as explicit oracles, and the unbounded
pagination loop with fuel (`none` = the loop does not terminate).
-/

set_option autoImplicit false

deriving instance DecidableEq for Except

namespace WhoEtl

/-- A scalar JSON value occurring in a raw API record.  `null` also stands
for pandas `NaN` (missing cell). -/
inductive Val where
  | str (s : String)
  | int (n : Int)
  | num (q : Rat)
  | null
  deriving DecidableEq, Repr

/-- A raw record as consumed by `transform_data`: only the four source keys
the code ever selects.  `none` means the key is absent from the dict (so the
`pandas` column cell is `NaN`). -/
structure RawRecord where
  SpatialDim : Option Val := none
  TimeDim : Option Val := none
  NumericValue : Option Val := none
  Dim1 : Option Val := none
  deriving DecidableEq, Repr

/-- `config.PAGE_SIZE`. -/
def PAGE_SIZE : Nat := 100

/-- `transform.MIN_YEAR`. -/
def MIN_YEAR : Int := 1900

/-- `transform.MAX_YEAR`. -/
def MAX_YEAR : Int := 2030

/-- `config.INDICATOR_CODE`. -/
def INDICATOR_CODE : String := "WHOSIS_000001"

/-- `transform.INDICATOR_NAME`. -/
def INDICATOR_NAME : String := "Life expectancy at birth (years)"

/-- `transform.SOURCE_URL`. -/
def SOURCE_URL : String := "https://ghoapi.azureedge.net/api"

/-- Digits of a decimal literal to a natural number. -/
def digitsToNat (l : List Char) : Nat :=
  l.foldl (fun a c => a * 10 + (c.toNat - 48)) 0

/-- Parse an unsigned decimal literal (`"2020"`, `"78.5"`, `"1."`, `".5"`),
as Python float parsing accepts for such plain literals. -/
def parseUnsigned (l : List Char) : Option Rat :=
  let ip := l.takeWhile (fun c => c.isDigit)
  let rest := l.dropWhile (fun c => c.isDigit)
  match rest with
  | [] => if ip.isEmpty then none else some (digitsToNat ip : Rat)
  | '.' :: fp =>
    if fp.all (fun c => c.isDigit) && !(ip.isEmpty && fp.isEmpty) then
      some (mkRat (digitsToNat ip * 10 ^ fp.length + digitsToNat fp) (10 ^ fp.length))
    else none
  | _ => none

/-- Parse a signed decimal literal. -/
def parseNumeric (s : String) : Option Rat :=
  match s.data with
  | '-' :: rest => (parseUnsigned rest).map (fun q => -q)
  | '+' :: rest => parseUnsigned rest
  | l => parseUnsigned l

/-- `pd.to_numeric(x, errors="coerce")` on one cell: numbers pass through,
numeric strings parse, everything else (and `NaN`) coerces to `NaN`. -/
def toNumeric : Val → Option Rat
  | Val.int n => some (n : Rat)
  | Val.num q => some q
  | Val.str s => parseNumeric s
  | Val.null => none

/-- A row after column selection and renaming (`transform.py` line 72).
`dimension` is `some` exactly when the batch had a `Dim1` column. -/
structure ProjRecord where
  country_code : Val
  year : Val
  value : Val
  dimension : Option Val
  deriving DecidableEq, Repr

/-- A row after numeric coercion of `year` and `value`. -/
structure TypedRecord where
  country_code : Val
  year : Int
  value : Rat
  dimension : Option Val
  deriving DecidableEq, Repr

/-- A row produced by `transform_data` (after metadata attachment). -/
structure OutRecord where
  country_code : Val
  year : Int
  value : Rat
  dimension : Option Val
  indicator_code : String
  indicator_name : String
  source_url : String
  deriving DecidableEq, Repr

/-- Does the batch's DataFrame have all three required columns?
(`"SpatialDim" in df.columns` ↔ some record carries the key.) -/
def requiredColumnsPresent (raw : List RawRecord) : Bool :=
  raw.any (fun r => r.SpatialDim.isSome) &&
  raw.any (fun r => r.TimeDim.isSome) &&
  raw.any (fun r => r.NumericValue.isSome)

/-- Does the batch's DataFrame have a `Dim1` column? -/
def hasDim1 (raw : List RawRecord) : Bool :=
  raw.any (fun r => r.Dim1.isSome)

/-- A DataFrame cell: an absent key is `NaN`, modelled `null`. -/
def cell (o : Option Val) : Val := o.getD Val.null

/-- Is the cell `NaN`/`None`? -/
def isNull : Val → Bool
  | Val.null => true
  | _ => false

/-- Column selection and renaming of one record (`transform.py` lines 62-72). -/
def projectRecord (hasDim : Bool) (r : RawRecord) : ProjRecord :=
  { country_code := cell r.SpatialDim
    year := cell r.TimeDim
    value := cell r.NumericValue
    dimension := if hasDim then some (cell r.Dim1) else none }

/-- The projected batch. -/
def projectedRows (raw : List RawRecord) : List ProjRecord :=
  raw.map (projectRecord (hasDim1 raw))

/-- `df.dropna(subset=["country_code", "year", "value"])`. -/
def nonNullRows (raw : List RawRecord) : List ProjRecord :=
  (projectedRows raw).filter
    (fun p => !isNull p.country_code && !isNull p.year && !isNull p.value)

/-- Does `astype("Int64")` on the coerced year column raise?  It does when a
cell coerces to a non-integral float. -/
def nonIntegralYear (p : ProjRecord) : Bool :=
  match toNumeric p.year with
  | some q => decide (q.den ≠ 1)
  | none => false

/-- Numeric coercion of one row; `none` when `year` or `value` coerces to
`NaN` (such rows are dropped by the second `dropna`). -/
def coerceRecord (p : ProjRecord) : Option TypedRecord :=
  (toNumeric p.year).bind (fun y =>
    (toNumeric p.value).bind (fun v =>
      if y.den = 1 then some ⟨p.country_code, y.num, v, p.dimension⟩ else none))

/-- Rows surviving coercion. -/
def typedRows (raw : List RawRecord) : List TypedRecord :=
  (nonNullRows raw).filterMap coerceRecord

/-- The dedup key: `(country_code, year)`. -/
def keyOfTyped (t : TypedRecord) : Val × Int := (t.country_code, t.year)

/-- Rows surviving the year-range and non-negative-value filters: the rows
reaching `drop_duplicates` (`transform.py` line 115). -/
def survivingRows (raw : List RawRecord) : List TypedRecord :=
  (((typedRows raw).filter
      (fun t => decide (MIN_YEAR ≤ t.year) && decide (t.year ≤ MAX_YEAR))).filter
    (fun t => decide (0 ≤ t.value)))

/-- `df.drop_duplicates(subset=["country_code", "year"], keep="first")`:
keep a row iff its key was not seen earlier. -/
def dedupKeepFirst : List TypedRecord → List (Val × Int) → List TypedRecord
  | [], _ => []
  | t :: ts, seen =>
    if keyOfTyped t ∈ seen then dedupKeepFirst ts seen
    else t :: dedupKeepFirst ts (keyOfTyped t :: seen)

/-- Metadata attachment (`transform.py` lines 126-128). -/
def attachMeta (t : TypedRecord) : OutRecord :=
  { country_code := t.country_code
    year := t.year
    value := t.value
    dimension := t.dimension
    indicator_code := INDICATOR_CODE
    indicator_name := INDICATOR_NAME
    source_url := SOURCE_URL }

/-- `transform.transform_data`.  `Except.error` models the exception raised
by `astype("Int64")` on a non-integral coerced year; all other paths return
normally. -/
def transform_data (raw : List RawRecord) : Except String (List OutRecord) :=
  if raw.isEmpty then Except.ok []
  else if !requiredColumnsPresent raw then Except.ok []
  else if (nonNullRows raw).any nonIntegralYear then
    Except.error "cannot safely cast non-equivalent float64 to int64"
  else Except.ok ((dedupKeepFirst (survivingRows raw) []).map attachMeta)

/-- The dedup key of an output record. -/
def keyOfOut (o : OutRecord) : Val × Int := (o.country_code, o.year)

/-- Forget the metadata columns of an output record. -/
def stripMeta (o : OutRecord) : TypedRecord :=
  ⟨o.country_code, o.year, o.value, o.dimension⟩

/-! ## HTTP fetcher (`utils/http.py` / `extract.py`, `fetch_with_retry`) -/

/-- What one `requests.get` + `raise_for_status` + `.json()` attempt does:
either a JSON body or a `RequestException` (identified by a code). -/
inductive FetchAttempt (J : Type) where
  | ok (body : J)
  | fail (e : Nat)
  deriving DecidableEq, Repr

/-- The retry loop of `fetch_with_retry`, driven by an oracle `att` giving
the outcome of each attempt.  Returns the result (`Except.error` is the
final `raise last_exception`, `none` when `max_retries = 0` and Python
would `raise None`), the number of `requests.get` calls made, and the list
of back-off sleeps taken (in seconds). -/
def retryAux (J : Type) (att : Nat → FetchAttempt J) (max_retries : Nat) :
    Nat → Nat → Option Nat → Except (Option Nat) J × Nat × List Nat
  | 0, _, last => (Except.error last, 0, [])
  | rem + 1, a, _ =>
    match att a with
    | FetchAttempt.ok j => (Except.ok j, 1, [])
    | FetchAttempt.fail e =>
      let sl := if a < max_retries - 1 then [2 ^ a] else []
      let r := retryAux J att max_retries rem (a + 1) (some e)
      (r.1, r.2.1 + 1, sl ++ r.2.2)

/-- `fetch_with_retry(url, max_retries)`: run the attempt loop over
`range(max_retries)` starting with `last_exception = None`. -/
def fetch_with_retry (J : Type) (att : Nat → FetchAttempt J)
    (max_retries : Nat) : Except (Option Nat) J × Nat × List Nat :=
  retryAux J att max_retries max_retries 0 none

/-! ## Checkpoint store (`load.py`: `save_checkpoint`, `get_last_checkpoint`) -/

/-- Pipeline status strings. -/
inductive Status where
  | running
  | completed
  | failed
  deriving DecidableEq, Repr

/-- The `pipeline_metadata` row for this pipeline: `none` = no row, else
the stored `(last_checkpoint, status)` (a `none` checkpoint = SQL NULL). -/
abbrev Store := Option (Option Nat × Status)

/-- `load.save_checkpoint`: an upsert keyed on the pipeline name, always
overwriting checkpoint and status. -/
def save_checkpoint (_st : Store) (c : Option Nat) (s : Status) : Store :=
  some (c, s)

/-- Apply a trace of checkpoint saves to a store. -/
def applySaves (st : Store) (saves : List (Option Nat × Status)) : Store :=
  saves.foldl (fun acc cs => save_checkpoint acc cs.1 cs.2) st

/-- `load.get_last_checkpoint`: the read either raises a database error
(caught, becoming `None`) or yields the row; a missing row or NULL
checkpoint also yields `None`. -/
def get_last_checkpoint (read : Except Nat Store) : Option Nat :=
  match read with
  | Except.error _ => none
  | Except.ok none => none
  | Except.ok (some (c, _)) => c

/-! ## Extractor (`extract.py`, `extract_data`) -/

/-- Outcome of one page fetch after the fetcher's retries: `ok v` is a JSON
body whose `"value"` key holds `v` (`none` = key absent), `err` a
`requests.RequestException` escaping `fetch_with_retry`. -/
inductive PageFetch (R : Type) where
  | ok (value : Option (List R))
  | err (e : Nat)

/-- The pagination loop of `extract_data`, driven by a page-fetch oracle
and fuel.  Returns `none` when the fuel runs out (the Python loop would
still be running), else the result (`Except.error` = the re-raised fetch
failure, with no partial records), the number of fetch calls, and the
checkpoint saves made, in order. -/
def extractLoop (R : Type) (fetch : Nat → PageFetch R) (pageSize : Nat) :
    Nat → Nat → Option (Except Nat (List R) × Nat × List (Option Nat × Status))
  | 0, _ => none
  | fuel + 1, page =>
    match fetch page with
    | PageFetch.err e => some (Except.error e, 1, [(some page, Status.failed)])
    | PageFetch.ok v =>
      let records := v.getD []
      if records.length < pageSize then
        some (Except.ok records, 1, [(some (page + 1), Status.running)])
      else
        match extractLoop R fetch pageSize fuel (page + 1) with
        | none => none
        | some (r, c, ss) =>
          some (r.map (fun tail => records ++ tail), c + 1,
                (some (page + 1), Status.running) :: ss)

/-- `extract.extract_data(start_from)`: start at the checkpoint's page if
one was passed, else at page 0. -/
def extract_data (R : Type) (fetch : Nat → PageFetch R)
    (start_from : Option Nat) (fuel : Nat) :
    Option (Except Nat (List R) × Nat × List (Option Nat × Status)) :=
  extractLoop R fetch PAGE_SIZE fuel (start_from.getD 0)

/-! ## Loader (`load.py`, `load_data`) -/

/-- A row of `health_indicators` (timestamps not modelled). -/
structure HealthRow where
  country_code : Val
  indicator_code : String
  indicator_name : String
  year : Int
  value : Rat
  source_url : String
  deriving DecidableEq, Repr

/-- The database state the loader touches: the `health_indicators` table
and this pipeline's `records_processed` counter. -/
structure Db where
  health : List HealthRow
  recordsProcessed : Nat
  deriving DecidableEq, Repr

/-- The upsert key `(country_code, indicator_code, year)`. -/
def rowKey (r : HealthRow) : Val × String × Int :=
  (r.country_code, r.indicator_code, r.year)

/-- Insert one record, `ON CONFLICT ... DO UPDATE SET value = EXCLUDED.value`. -/
def upsertRow (t : List HealthRow) (o : OutRecord) : List HealthRow :=
  let newRow : HealthRow :=
    ⟨o.country_code, o.indicator_code, o.indicator_name, o.year, o.value,
      o.source_url⟩
  if t.any (fun r => decide (rowKey r = rowKey newRow)) then
    t.map (fun r => if rowKey r = rowKey newRow then { r with value := o.value } else r)
  else t ++ [newRow]

/-- `load.load_data`: empty input is a no-op returning 0; otherwise one
transaction doing the batch upsert and the metadata update.  `dbFail`
injects a `psycopg2.Error` anywhere inside the transaction: the rollback
leaves the database unchanged and the error is re-raised. -/
def load_data (dbFail : Option Nat) (db : Db) (data : List OutRecord) :
    Except Nat Nat × Db :=
  if data.isEmpty then (Except.ok 0, db)
  else
    match dbFail with
    | some e => (Except.error e, db)
    | none =>
      (Except.ok data.length,
        { health := data.foldl upsertRow db.health
          recordsProcessed := db.recordsProcessed + data.length })

/-! ## Orchestrator (`main.py`, `run_pipeline`) -/

/-- The step whose exception escapes `run_pipeline`, carrying the
underlying error. -/
inductive PipeError where
  | fetchErr (e : Nat)
  | transformErr (msg : String)
  | loadErr (e : Nat)
  deriving DecidableEq, Repr

/-- The external world of one pipeline run: stored checkpoint row, load
database, whether the checkpoint read raises, the page-fetch oracle,
loop fuel, and whether the load transaction fails. -/
structure PipelineEnv where
  store : Store
  db : Db
  readFails : Option Nat
  fetch : Nat → PageFetch RawRecord
  fuel : Nat
  dbFail : Option Nat

/-- The checkpoint `run_pipeline` reads at start (`main.py` line 44):
a read failure is caught inside `get_last_checkpoint` and becomes `none`. -/
def initCkpt (env : PipelineEnv) : Option Nat :=
  get_last_checkpoint
    (match env.readFails with
     | some e => Except.error e
     | none => Except.ok env.store)

/-- `main.run_pipeline`: read checkpoint, extract, transform, load, then
clear the checkpoint with status `completed`; on any step's exception,
save the checkpoint variable read at start with status `failed` and
re-raise.  `none` = extraction never terminates. -/
def run_pipeline (env : PipelineEnv) :
    Option (Except PipeError Nat × Store × Db) :=
  let ckpt := initCkpt env
  match extract_data RawRecord env.fetch ckpt env.fuel with
  | none => none
  | some (Except.error e, _, saves) =>
    some (Except.error (PipeError.fetchErr e),
          save_checkpoint (applySaves env.store saves) ckpt Status.failed,
          env.db)
  | some (Except.ok raw, _, saves) =>
    let st1 := applySaves env.store saves
    match transform_data raw with
    | Except.error msg =>
      some (Except.error (PipeError.transformErr msg),
            save_checkpoint st1 ckpt Status.failed, env.db)
    | Except.ok clean =>
      match load_data env.dbFail env.db clean with
      | (Except.error e, db') =>
        some (Except.error (PipeError.loadErr e),
              save_checkpoint st1 ckpt Status.failed, db')
      | (Except.ok n, db') =>
        some (Except.ok n, save_checkpoint st1 none Status.completed, db')

/-! ## Lemmas about the retry loop -/

/-- The back-off sleeps taken when attempts `a, …, a + rem - 1` all fail:
`2 ^ i` seconds after attempt `i`, skipped after the final attempt. -/
def backoffSleeps (m a rem : Nat) : List Nat :=
  ((List.range' a rem).filter (fun i => decide (i < m - 1))).map (fun i => 2 ^ i)

lemma backoffSleeps_succ (m a rem : Nat) :
    backoffSleeps m a (rem + 1) =
      (if a < m - 1 then [2 ^ a] else []) ++ backoffSleeps m (a + 1) rem := by
  simp only [backoffSleeps, List.range'_succ, List.filter_cons]
  by_cases h : a < m - 1 <;> simp [h]

lemma backoffSleeps_zero (m a : Nat) : backoffSleeps m a 0 = [] := rfl

lemma retryAux_zero_eq (J : Type) (att : Nat → FetchAttempt J) (m a : Nat)
    (last : Option Nat) :
    retryAux J att m 0 a last = (Except.error last, 0, []) := rfl

lemma retryAux_succ_eq (J : Type) (att : Nat → FetchAttempt J) (m rem a : Nat)
    (last : Option Nat) :
    retryAux J att m (rem + 1) a last =
      (match att a with
       | FetchAttempt.ok j => (Except.ok j, 1, [])
       | FetchAttempt.fail e =>
         ((retryAux J att m rem (a + 1) (some e)).1,
          (retryAux J att m rem (a + 1) (some e)).2.1 + 1,
          (if a < m - 1 then [2 ^ a] else []) ++
            (retryAux J att m rem (a + 1) (some e)).2.2)) := rfl

lemma retryAux_all_fail (J : Type) (att : Nat → FetchAttempt J) (m : Nat)
    (e : Nat → Nat) :
    ∀ rem a last, (∀ i, a ≤ i → i < a + rem + 1 → att i = FetchAttempt.fail (e i)) →
      retryAux J att m (rem + 1) a last =
        (Except.error (some (e (a + rem))), rem + 1, backoffSleeps m a (rem + 1)) := by
  intro rem
  induction rem with
  | zero =>
    intro a last h
    have ha : att a = FetchAttempt.fail (e a) := h a (le_refl a) (by omega)
    rw [retryAux_succ_eq, ha]
    simp [retryAux_zero_eq, backoffSleeps_succ, backoffSleeps_zero]
  | succ k ih =>
    intro a last h
    have ha : att a = FetchAttempt.fail (e a) := h a (le_refl a) (by omega)
    have hrec := ih (a + 1) (some (e a)) (fun i h1 h2 => h i (by omega) (by omega))
    have hidx : a + 1 + k = a + (k + 1) := by omega
    rw [hidx] at hrec
    rw [retryAux_succ_eq, ha]
    simp [hrec, backoffSleeps_succ]

lemma retryAux_succ_at (J : Type) (att : Nat → FetchAttempt J) (m : Nat)
    (e : Nat → Nat) (j : J) :
    ∀ k rem a last, k < rem →
      (∀ i, a ≤ i → i < a + k → att i = FetchAttempt.fail (e i)) →
      att (a + k) = FetchAttempt.ok j →
      retryAux J att m rem a last = (Except.ok j, k + 1, backoffSleeps m a k) := by
  intro k
  induction k with
  | zero =>
    intro rem a last hk _ hok
    cases rem with
    | zero => omega
    | succ rem' =>
      have ha : att a = FetchAttempt.ok j := by simpa using hok
      rw [retryAux_succ_eq, ha]
      simp [backoffSleeps_zero]
  | succ k ih =>
    intro rem a last hk h hok
    cases rem with
    | zero => omega
    | succ rem' =>
      have ha : att a = FetchAttempt.fail (e a) := h a (le_refl a) (by omega)
      have hok' : att (a + 1 + k) = FetchAttempt.ok j := by
        rw [show a + 1 + k = a + (k + 1) from by omega]; exact hok
      have hrec := ih rem' (a + 1) (some (e a)) (by omega)
        (fun i h1 h2 => h i (by omega) (by omega)) hok'
      rw [retryAux_succ_eq, ha]
      simp [hrec, backoffSleeps_succ]

/-- Claim C4: `fetch_with_retry` makes up to `m` attempts (default 3) on
failures, sleeping `2 ^ attempt` seconds between attempts (1s, 2s, 4s, …)
and not after the final attempt; on exhaustion it raises the last
underlying failure, and a success returns immediately — for a success on
attempt 0 in particular, exactly one call and no sleeps, regardless of the
payload `j`. -/
theorem c4_fetch_retry_backoff (J : Type) (att : Nat → FetchAttempt J)
    (m k : Nat) (j : J) (e : Nat → Nat) (hm : 1 ≤ m) :
    ((∀ i, i < k → att i = FetchAttempt.fail (e i)) → k < m →
      att k = FetchAttempt.ok j →
      fetch_with_retry J att m =
        (Except.ok j, k + 1, (List.range k).map (fun i => 2 ^ i)))
    ∧ ((∀ i, i < m → att i = FetchAttempt.fail (e i)) →
      fetch_with_retry J att m =
        (Except.error (some (e (m - 1))), m,
         (List.range (m - 1)).map (fun i => 2 ^ i)))
    ∧ (att 0 = FetchAttempt.ok j →
      fetch_with_retry J att m = (Except.ok j, 1, [])) := by
  refine ⟨?_, ?_, ?_⟩
  · intro hfail hk hok
    have hrun := retryAux_succ_at J att m e j k m 0 none hk
      (fun i h1 h2 => hfail i (by omega)) (by simpa using hok)
    have hfilt : (List.range k).filter (fun i => decide (i < m - 1)) = List.range k := by
      refine List.filter_eq_self.mpr (fun a ha => ?_)
      simp only [List.mem_range] at ha
      simp only [decide_eq_true_eq]
      omega
    rw [fetch_with_retry, hrun]
    simp [backoffSleeps, ← List.range_eq_range', hfilt]
  · intro hfail
    cases m with
    | zero => omega
    | succ m' =>
      have hrun := retryAux_all_fail J att (m' + 1) e m' 0 none
        (fun i h1 h2 => hfail i (by omega))
      have hfilt : (List.range (m' + 1)).filter (fun i => decide (i < m')) =
          List.range m' := by
        rw [List.range_succ, List.filter_append]
        have h1 : (List.range m').filter (fun i => decide (i < m')) = List.range m' := by
          refine List.filter_eq_self.mpr (fun a ha => ?_)
          simp only [List.mem_range] at ha
          simp only [decide_eq_true_eq]
          omega
        simp [h1]
      rw [fetch_with_retry, hrun]
      simp [backoffSleeps, ← List.range_eq_range', hfilt]
  · intro hok
    have hrun := retryAux_succ_at J att m e j 0 m 0 none (by omega)
      (fun i h1 h2 => by omega) (by simpa using hok)
    rw [fetch_with_retry, hrun]
    simp [backoffSleeps]

/-! ## Lemmas about the pagination loop -/

lemma extractLoop_zero_eq (R : Type) (fetch : Nat → PageFetch R) (ps page : Nat) :
    extractLoop R fetch ps 0 page = none := rfl

lemma extractLoop_succ_eq (R : Type) (fetch : Nat → PageFetch R)
    (ps fuel page : Nat) :
    extractLoop R fetch ps (fuel + 1) page =
      (match fetch page with
       | PageFetch.err e => some (Except.error e, 1, [(some page, Status.failed)])
       | PageFetch.ok v =>
         if (v.getD []).length < ps then
           some (Except.ok (v.getD []), 1, [(some (page + 1), Status.running)])
         else
           match extractLoop R fetch ps fuel (page + 1) with
           | none => none
           | some (r, c, ss) =>
             some (r.map (fun tail => v.getD [] ++ tail), c + 1,
                   (some (page + 1), Status.running) :: ss)) := rfl

/-- The records accumulated from pages `s, …, s + n - 1`, in response order. -/
def pagesJoin (R : Type) (recs : Nat → List R) (s n : Nat) : List R :=
  ((List.range' s n).map recs).flatten

/-- The `{page: i + 1}` / `running` checkpoints written after pages
`s, …, s + n - 1`, in order. -/
def runningSaves (s n : Nat) : List (Option Nat × Status) :=
  (List.range' s n).map (fun i => (some (i + 1), Status.running))

lemma pagesJoin_succ (R : Type) (recs : Nat → List R) (s n : Nat) :
    pagesJoin R recs s (n + 1) = recs s ++ pagesJoin R recs (s + 1) n := by
  simp [pagesJoin, List.range'_succ]

lemma runningSaves_succ (s n : Nat) :
    runningSaves s (n + 1) =
      (some (s + 1), Status.running) :: runningSaves (s + 1) n := by
  simp [runningSaves, List.range'_succ]

lemma extractLoop_success (R : Type) (fetch : Nat → PageFetch R)
    (recs : Nat → List R) :
    ∀ n s fuel,
      (∀ i, s ≤ i → i < s + n →
        fetch i = PageFetch.ok (some (recs i)) ∧ PAGE_SIZE ≤ (recs i).length) →
      fetch (s + n) = PageFetch.ok (some (recs (s + n))) →
      (recs (s + n)).length < PAGE_SIZE →
      n + 1 ≤ fuel →
      extractLoop R fetch PAGE_SIZE fuel s =
        some (Except.ok (pagesJoin R recs s n ++ recs (s + n)), n + 1,
              runningSaves s (n + 1)) := by
  intro n
  induction n with
  | zero =>
    intro s fuel _ hlast hshort hfuel
    simp only [Nat.add_zero] at hlast hshort
    cases fuel with
    | zero => omega
    | succ f =>
      rw [extractLoop_succ_eq, hlast]
      simp only [Option.getD_some]
      rw [if_pos hshort]
      simp [pagesJoin, runningSaves, List.range'_one]
  | succ n ih =>
    intro s fuel hfull hlast hshort hfuel
    cases fuel with
    | zero => omega
    | succ f =>
      obtain ⟨hok, hlen⟩ := hfull s (le_refl s) (by omega)
      have hlast' : fetch (s + 1 + n) = PageFetch.ok (some (recs (s + 1 + n))) := by
        rw [show s + 1 + n = s + (n + 1) from by omega]; exact hlast
      have hshort' : (recs (s + 1 + n)).length < PAGE_SIZE := by
        rw [show s + 1 + n = s + (n + 1) from by omega]; exact hshort
      have hrec := ih (s + 1) f
        (fun i h1 h2 => hfull i (by omega) (by omega)) hlast' hshort' (by omega)
      rw [extractLoop_succ_eq, hok]
      simp only [Option.getD_some]
      rw [if_neg (by omega), hrec]
      have hidx : s + 1 + n = s + (n + 1) := by omega
      simp [Except.map, pagesJoin_succ, runningSaves_succ, hidx, List.append_assoc]

lemma extractLoop_diverges (R : Type) (fetch : Nat → PageFetch R)
    (recs : Nat → List R) (s : Nat)
    (hfull : ∀ i, s ≤ i →
      fetch i = PageFetch.ok (some (recs i)) ∧ PAGE_SIZE ≤ (recs i).length) :
    ∀ fuel s', s ≤ s' → extractLoop R fetch PAGE_SIZE fuel s' = none := by
  intro fuel
  induction fuel with
  | zero => intro s' _; rfl
  | succ f ih =>
    intro s' hs
    obtain ⟨hok, hlen⟩ := hfull s' hs
    rw [extractLoop_succ_eq, hok]
    simp only [Option.getD_some]
    rw [if_neg (by omega), ih (s' + 1) (by omega)]

lemma extractLoop_failure (R : Type) (fetch : Nat → PageFetch R)
    (recs : Nat → List R) (e : Nat) :
    ∀ n s fuel,
      (∀ i, s ≤ i → i < s + n →
        fetch i = PageFetch.ok (some (recs i)) ∧ PAGE_SIZE ≤ (recs i).length) →
      fetch (s + n) = PageFetch.err e →
      n + 1 ≤ fuel →
      extractLoop R fetch PAGE_SIZE fuel s =
        some (Except.error e, n + 1,
              runningSaves s n ++ [(some (s + n), Status.failed)]) := by
  intro n
  induction n with
  | zero =>
    intro s fuel _ herr hfuel
    simp only [Nat.add_zero] at herr
    cases fuel with
    | zero => omega
    | succ f =>
      rw [extractLoop_succ_eq, herr]
      simp [runningSaves]
  | succ n ih =>
    intro s fuel hfull herr hfuel
    cases fuel with
    | zero => omega
    | succ f =>
      obtain ⟨hok, hlen⟩ := hfull s (le_refl s) (by omega)
      have herr' : fetch (s + 1 + n) = PageFetch.err e := by
        rw [show s + 1 + n = s + (n + 1) from by omega]; exact herr
      have hrec := ih (s + 1) f
        (fun i h1 h2 => hfull i (by omega) (by omega)) herr' (by omega)
      rw [extractLoop_succ_eq, hok]
      simp only [Option.getD_some]
      rw [if_neg (by omega), hrec]
      have hidx : s + 1 + n = s + (n + 1) := by omega
      simp [Except.map, runningSaves_succ, hidx]

/-! ## Lemmas about the checkpoint store -/

lemma applySaves_cons (st : Store) (a : Option Nat × Status)
    (t : List (Option Nat × Status)) :
    applySaves st (a :: t) = applySaves (save_checkpoint st a.1 a.2) t := rfl

lemma applySaves_getLast (saves : List (Option Nat × Status)) :
    ∀ st x, saves.getLast? = some x → applySaves st saves = some x := by
  induction saves with
  | nil => intro st x h; simp at h
  | cons a t ih =>
    intro st x h
    cases t with
    | nil =>
      simp only [List.getLast?_singleton, Option.some.injEq] at h
      simp [applySaves, save_checkpoint, h]
    | cons b t' =>
      rw [List.getLast?_cons_cons] at h
      rw [applySaves_cons]
      exact ih (save_checkpoint st a.1 a.2) x h

/-- A concrete retry run: attempts 0, 1, 2 fail, so with `max_retries = 3`
the last failure is raised after 3 calls and sleeps of 1s and 2s. -/
def c4Att : Nat → FetchAttempt Nat := fun i =>
  if i < 3 then FetchAttempt.fail (10 + i) else FetchAttempt.ok 42

theorem c4_fetch_retry_backoff_wit :
    fetch_with_retry Nat c4Att 3 = (Except.error (some 12), 3, [1, 2]) := by
  have h := (c4_fetch_retry_backoff Nat c4Att 3 0 42 (fun i => 10 + i)
    (by omega)).2.1 (fun i hi => by simp [c4Att]; omega)
  rw [h]
  norm_num [List.range_succ]

/-- Claim C3: extraction over the page-fetch oracle terminates exactly when
some page returns strictly fewer than `PAGE_SIZE = 100` records: when pages
`s, …, s+n-1` are full and page `s+n` is short, it returns all their
records concatenated in response order in exactly `n + 1` fetch calls,
persisting a `{page: i + 1}` / `running` checkpoint after each page; when
every page from `s` on is full, no amount of fuel makes the loop
terminate. -/
theorem c3_extract_pagination (R : Type) (fetch : Nat → PageFetch R)
    (recs : Nat → List R) (s n fuel : Nat) :
    ((∀ i, s ≤ i → i < s + n →
        fetch i = PageFetch.ok (some (recs i)) ∧ PAGE_SIZE ≤ (recs i).length) →
      fetch (s + n) = PageFetch.ok (some (recs (s + n))) →
      (recs (s + n)).length < PAGE_SIZE →
      n + 1 ≤ fuel →
      extract_data R fetch (some s) fuel =
        some (Except.ok (pagesJoin R recs s n ++ recs (s + n)), n + 1,
              runningSaves s (n + 1)))
    ∧ ((∀ i, s ≤ i →
        fetch i = PageFetch.ok (some (recs i)) ∧ PAGE_SIZE ≤ (recs i).length) →
      extract_data R fetch (some s) fuel = none) := by
  constructor
  · intro h1 h2 h3 h4
    exact extractLoop_success R fetch recs n s fuel h1 h2 h3 h4
  · intro h
    exact extractLoop_diverges R fetch recs s h fuel s (le_refl s)

/-- A two-page API: page 0 returns 100 records, later pages 30. -/
def c3Fetch : Nat → PageFetch Unit := fun p =>
  if p = 0 then PageFetch.ok (some (List.replicate 100 ()))
  else PageFetch.ok (some (List.replicate 30 ()))

/-- The page contents of `c3Fetch`. -/
def c3Recs : Nat → List Unit := fun p =>
  if p = 0 then List.replicate 100 () else List.replicate 30 ()

theorem c3_extract_pagination_wit :
    extract_data Unit c3Fetch (some 0) 2 =
      some (Except.ok (List.replicate 130 ()), 2,
            [(some 1, Status.running), (some 2, Status.running)]) ∧
    (List.replicate 130 ()).length = 130 := by
  have h := (c3_extract_pagination Unit c3Fetch c3Recs 0 1 2).1
    (fun i h1 h2 => by
      have hi : i = 0 := by omega
      subst hi
      exact ⟨rfl, by simp [c3Recs, PAGE_SIZE]⟩)
    rfl (by simp [c3Recs, PAGE_SIZE]) (by omega)
  refine ⟨?_, by simp⟩
  rw [h]
  rfl

/-- Claim C9: a fetched page whose JSON body has no `"value"` key is
treated as zero records: nothing is appended, a `{page: p + 1}` /
`running` checkpoint is persisted, and the pagination loop terminates
successfully. -/
theorem c9_missing_value_key_ends_extraction (R : Type)
    (fetch : Nat → PageFetch R) (p fuel : Nat)
    (h : fetch p = PageFetch.ok none) :
    extract_data R fetch (some p) (fuel + 1) =
      some (Except.ok [], 1, [(some (p + 1), Status.running)]) := by
  show extractLoop R fetch PAGE_SIZE (fuel + 1) p = _
  rw [extractLoop_succ_eq, h]
  simp [PAGE_SIZE]

/-- An API that always answers with a JSON body lacking the `"value"` key. -/
def c9Fetch : Nat → PageFetch Unit := fun _ => PageFetch.ok none

theorem c9_missing_value_key_ends_extraction_wit :
    extract_data Unit c9Fetch (some 4) 1 =
      some (Except.ok [], 1, [(some 5, Status.running)]) :=
  c9_missing_value_key_ends_extraction Unit c9Fetch 4 0 rfl

/-- Claim C5: loading the empty batch is a no-op returning 0; a database
failure inside the transaction rolls the whole batch back (the database is
unchanged) and re-raises the error; a successful load performs the batch
upsert together with the metadata increment and returns the number of
input records. -/
theorem c5_load_transactional (db : Db) (data : List OutRecord)
    (dbFail : Option Nat) (e : Nat) :
    (load_data dbFail db [] = (Except.ok 0, db))
    ∧ (data ≠ [] → dbFail = some e →
      load_data dbFail db data = (Except.error e, db))
    ∧ (data ≠ [] →
      load_data none db data =
        (Except.ok data.length,
         { health := data.foldl upsertRow db.health
           recordsProcessed := db.recordsProcessed + data.length })) := by
  refine ⟨rfl, ?_, ?_⟩
  · intro hne hf
    have hemp : data.isEmpty = false := List.isEmpty_eq_false.mpr hne
    simp [load_data, hemp, hf]
  · intro hne
    have hemp : data.isEmpty = false := List.isEmpty_eq_false.mpr hne
    simp [load_data, hemp]

/-- A canonical record used to exercise the loader. -/
def c5Rec : OutRecord :=
  { country_code := Val.str "USA"
    year := 2020
    value := (157 : Rat) / 2
    dimension := none
    indicator_code := INDICATOR_CODE
    indicator_name := INDICATOR_NAME
    source_url := SOURCE_URL }

theorem c5_load_transactional_wit :
    load_data (some 3) ⟨[], 0⟩ [c5Rec] = (Except.error 3, ⟨[], 0⟩) :=
  (c5_load_transactional ⟨[], 0⟩ [c5Rec] (some 3) 3).2.1 (by simp) rfl

/-- Claim C2: whatever step of the run raises — extraction, transformation
(the `astype` exception), or a non-empty load — `run_pipeline` persists
the checkpoint it read at the start of the run (the one its `checkpoint`
variable holds before the failing step) with status `failed`, and
re-raises that same step's exception to its caller. -/
theorem c2_orchestrator_persists_initial_and_reraises (env : PipelineEnv) :
    (∀ e c saves,
      extract_data RawRecord env.fetch (initCkpt env) env.fuel =
        some (Except.error e, c, saves) →
      run_pipeline env =
        some (Except.error (PipeError.fetchErr e),
              some (initCkpt env, Status.failed), env.db))
    ∧ (∀ raw c saves msg,
      extract_data RawRecord env.fetch (initCkpt env) env.fuel =
        some (Except.ok raw, c, saves) →
      transform_data raw = Except.error msg →
      run_pipeline env =
        some (Except.error (PipeError.transformErr msg),
              some (initCkpt env, Status.failed), env.db))
    ∧ (∀ raw c saves clean e,
      extract_data RawRecord env.fetch (initCkpt env) env.fuel =
        some (Except.ok raw, c, saves) →
      transform_data raw = Except.ok clean →
      clean ≠ [] →
      env.dbFail = some e →
      run_pipeline env =
        some (Except.error (PipeError.loadErr e),
              some (initCkpt env, Status.failed), env.db)) := by
  refine ⟨?_, ?_, ?_⟩
  · intro e c saves hx
    simp [run_pipeline, hx, save_checkpoint]
  · intro raw c saves msg hx htr
    simp [run_pipeline, hx, htr, save_checkpoint]
  · intro raw c saves clean e hx htr hne hf
    have hemp : clean.isEmpty = false := List.isEmpty_eq_false.mpr hne
    simp [run_pipeline, hx, htr, save_checkpoint, load_data, hemp, hf]

/-- A run whose first fetch (at the resumed page 2) fails. -/
def c2Env : PipelineEnv :=
  { store := some (some 2, Status.completed)
    db := ⟨[], 0⟩
    readFails := none
    fetch := fun _ => PageFetch.err 5
    fuel := 1
    dbFail := none }

theorem c2_orchestrator_persists_initial_and_reraises_wit :
    run_pipeline c2Env =
      some (Except.error (PipeError.fetchErr 5),
            some (some 2, Status.failed), ⟨[], 0⟩) := by
  have h := (c2_orchestrator_persists_initial_and_reraises c2Env).1
    5 1 [(some 2, Status.failed)] rfl
  simpa [c2Env, initCkpt, get_last_checkpoint] using h

/-- A fresh run (no stored checkpoint) whose very first fetch fails. -/
def c1Env : PipelineEnv :=
  { store := none
    db := ⟨[], 0⟩
    readFails := none
    fetch := fun _ => PageFetch.err 7
    fuel := 1
    dbFail := none }

/-- Claim C1 is false on the code: extraction fails at page 0 and the
extractor does write the checkpoint `{page: 0}` / `failed`, but once the
run has terminated the store holds a cleared (NULL) checkpoint with status
`failed` — `run_pipeline`'s exception handler overwrote the failing-page
checkpoint with the checkpoint read at the start of the run (`None`). -/
theorem c1_checkpoint_overwritten_cex :
    extract_data RawRecord c1Env.fetch (initCkpt c1Env) c1Env.fuel =
      some (Except.error 7, 1, [(some 0, Status.failed)]) ∧
    run_pipeline c1Env =
      some (Except.error (PipeError.fetchErr 7),
            some (none, Status.failed), ⟨[], 0⟩) ∧
    some ((none : Option Nat), Status.failed) ≠ some (some 0, Status.failed) :=
  ⟨rfl, rfl, by decide⟩

/-- Claim C1 amended: when extraction fails at page `s + n` (after `n` full
pages from the resume page `s`), the extractor's last checkpoint write is
`{page: s + n}` with status `failed` — at that moment the store holds it —
but the orchestrator's handler then overwrites it: the terminated run's
store holds the pre-run checkpoint `{page: s}` with status `failed`, so
the failing-page checkpoint survives only when `n = 0`. -/
theorem c1_failing_checkpoint_then_overwritten (env : PipelineEnv)
    (recs : Nat → List RawRecord) (s n e : Nat)
    (hs : initCkpt env = some s)
    (hfull : ∀ i, s ≤ i → i < s + n →
      env.fetch i = PageFetch.ok (some (recs i)) ∧ PAGE_SIZE ≤ (recs i).length)
    (herr : env.fetch (s + n) = PageFetch.err e)
    (hfuel : n + 1 ≤ env.fuel) :
    extract_data RawRecord env.fetch (initCkpt env) env.fuel =
      some (Except.error e, n + 1,
            runningSaves s n ++ [(some (s + n), Status.failed)]) ∧
    applySaves env.store (runningSaves s n ++ [(some (s + n), Status.failed)]) =
      some (some (s + n), Status.failed) ∧
    run_pipeline env =
      some (Except.error (PipeError.fetchErr e),
            some (some s, Status.failed), env.db) := by
  have hx : extract_data RawRecord env.fetch (initCkpt env) env.fuel =
      some (Except.error e, n + 1,
            runningSaves s n ++ [(some (s + n), Status.failed)]) := by
    rw [hs]
    exact extractLoop_failure RawRecord env.fetch recs e n s env.fuel hfull herr hfuel
  refine ⟨hx, ?_, ?_⟩
  · exact applySaves_getLast _ env.store _ (List.getLast?_concat _)
  · have h := (c2_orchestrator_persists_initial_and_reraises env).1 _ _ _ hx
    rw [h, hs]

/-- A resumed run: initial checkpoint `{page: 2}`, page 2 full (100
records), page 3 fails. -/
def c1AEnv : PipelineEnv :=
  { store := some (some 2, Status.failed)
    db := ⟨[], 0⟩
    readFails := none
    fetch := fun p =>
      if p = 2 then PageFetch.ok (some (List.replicate 100 {})) else PageFetch.err 9
    fuel := 2
    dbFail := none }

theorem c1_failing_checkpoint_then_overwritten_wit :
    extract_data RawRecord c1AEnv.fetch (initCkpt c1AEnv) c1AEnv.fuel =
      some (Except.error 9, 2,
            [(some 3, Status.running), (some 3, Status.failed)]) ∧
    applySaves c1AEnv.store
      [(some 3, Status.running), (some 3, Status.failed)] =
      some (some 3, Status.failed) ∧
    run_pipeline c1AEnv =
      some (Except.error (PipeError.fetchErr 9),
            some (some 2, Status.failed), ⟨[], 0⟩) := by
  have h := c1_failing_checkpoint_then_overwritten c1AEnv
    (fun _ => List.replicate 100 {}) 2 1 9 rfl
    (fun i h1 h2 => by
      have hi : i = 2 := by omega
      subst hi
      exact ⟨rfl, by simp [PAGE_SIZE]⟩)
    rfl (by simp [c1AEnv])
  simpa [runningSaves, List.range'_one] using h

/-- Claim C10: a database error during the checkpoint read makes
`get_last_checkpoint` return `None` instead of raising — indistinguishable
from no stored row — so the orchestrator reads no checkpoint and the whole
run behaves exactly as a fresh start (extraction from page 0). -/
theorem c10_checkpoint_read_error_fresh_start (env : PipelineEnv) (e : Nat)
    (h : env.readFails = some e) :
    get_last_checkpoint (Except.error e) = none ∧
    get_last_checkpoint (Except.ok none) = none ∧
    initCkpt env = none ∧
    run_pipeline env =
      run_pipeline { env with store := none, readFails := none } := by
  have h1 : initCkpt env = none := by simp [initCkpt, h, get_last_checkpoint]
  have h2 : initCkpt { env with store := none, readFails := none } = none := rfl
  refine ⟨rfl, rfl, h1, ?_⟩
  simp only [run_pipeline, h1, h2]
  cases hx : extract_data RawRecord env.fetch none env.fuel with
  | none => rfl
  | some v =>
    obtain ⟨r, c, ss⟩ := v
    cases r with
    | error e' => simp [save_checkpoint]
    | ok raw =>
      cases htr : transform_data raw with
      | error msg => simp [save_checkpoint]
      | ok clean =>
        cases hld : load_data env.dbFail env.db clean with
        | mk r' db' => cases r' <;> simp [save_checkpoint]

/-- A run whose checkpoint read raises, over a store that does hold a
checkpoint row, and whose single fetched page is short. -/
def c10Env : PipelineEnv :=
  { store := some (some 6, Status.failed)
    db := ⟨[], 0⟩
    readFails := some 4
    fetch := fun _ => PageFetch.ok (some [])
    fuel := 1
    dbFail := none }

theorem c10_checkpoint_read_error_fresh_start_wit :
    initCkpt c10Env = none ∧
    run_pipeline c10Env =
      run_pipeline { c10Env with store := none, readFails := none } := by
  have h := c10_checkpoint_read_error_fresh_start c10Env 4 rfl
  exact ⟨h.2.2.1, h.2.2.2⟩

/-! ## Lemmas about the transformer -/

lemma transform_data_ok (raw : List RawRecord) (out : List OutRecord)
    (h : transform_data raw = Except.ok out) :
    out = [] ∨ out = (dedupKeepFirst (survivingRows raw) []).map attachMeta := by
  cases h1 : raw.isEmpty with
  | true =>
    simp [transform_data, h1] at h
    exact Or.inl h
  | false =>
    cases h2 : requiredColumnsPresent raw with
    | false =>
      simp [transform_data, h1, h2] at h
      exact Or.inl h
    | true =>
      cases h3 : (nonNullRows raw).any nonIntegralYear with
      | true => simp [transform_data, h1, h2, h3] at h
      | false =>
        simp [transform_data, h1, h2, h3] at h
        exact Or.inr h.symm

lemma coerceRecord_some (p : ProjRecord) (t : TypedRecord)
    (h : coerceRecord p = some t) :
    ∃ y v, toNumeric p.year = some y ∧ toNumeric p.value = some v ∧
      y.den = 1 ∧ t = ⟨p.country_code, y.num, v, p.dimension⟩ := by
  unfold coerceRecord at h
  obtain ⟨y, hy, h1⟩ := Option.bind_eq_some.mp h
  obtain ⟨v, hv, h2⟩ := Option.bind_eq_some.mp h1
  by_cases hd : y.den = 1
  · rw [if_pos hd] at h2
    injection h2 with h2'
    exact ⟨y, v, hy, hv, hd, h2'.symm⟩
  · rw [if_neg hd] at h2
    cases h2

lemma survivingRows_dimension (raw : List RawRecord) (t : TypedRecord)
    (ht : t ∈ survivingRows raw) :
    ∃ r ∈ raw, t.dimension = if hasDim1 raw then some (cell r.Dim1) else none := by
  have ht1 : t ∈ typedRows raw :=
    (List.mem_filter.mp (List.mem_filter.mp ht).1).1
  obtain ⟨p, hp, hcp⟩ := List.mem_filterMap.mp ht1
  have hp1 : p ∈ projectedRows raw := (List.mem_filter.mp hp).1
  obtain ⟨r, hr, hpr⟩ := List.mem_map.mp hp1
  obtain ⟨y, v, _, _, _, hteq⟩ := coerceRecord_some p t hcp
  refine ⟨r, hr, ?_⟩
  rw [hteq]
  show p.dimension = _
  rw [← hpr]
  rfl

lemma dedupKeepFirst_sublist (xs : List TypedRecord) :
    ∀ seen, (dedupKeepFirst xs seen).Sublist xs := by
  induction xs with
  | nil => intro seen; simp [dedupKeepFirst]
  | cons x ts ih =>
    intro seen
    simp only [dedupKeepFirst]
    by_cases h : keyOfTyped x ∈ seen
    · rw [if_pos h]
      exact (ih seen).cons x
    · rw [if_neg h]
      exact (ih _).cons₂ x

lemma dedupKeepFirst_spec (xs : List TypedRecord) :
    ∀ seen (y : TypedRecord), y ∈ dedupKeepFirst xs seen →
      keyOfTyped y ∉ seen ∧
      xs.find? (fun t => decide (keyOfTyped t = keyOfTyped y)) = some y := by
  induction xs with
  | nil => intro seen y h; simp [dedupKeepFirst] at h
  | cons x ts ih =>
    intro seen y hy
    simp only [dedupKeepFirst] at hy
    by_cases h : keyOfTyped x ∈ seen
    · rw [if_pos h] at hy
      obtain ⟨h1, h2⟩ := ih seen y hy
      have hne : keyOfTyped x ≠ keyOfTyped y := fun heq => h1 (heq ▸ h)
      refine ⟨h1, ?_⟩
      rw [List.find?_cons]
      simp [hne, h2]
    · rw [if_neg h] at hy
      rcases List.mem_cons.mp hy with h1 | h1
      · subst h1
        refine ⟨h, ?_⟩
        rw [List.find?_cons]
        simp
      · obtain ⟨h1', h2⟩ := ih _ y h1
        have hxny : keyOfTyped x ≠ keyOfTyped y := by
          intro heq
          exact h1' (by rw [← heq]; exact List.mem_cons_self _ _)
        refine ⟨fun hc => h1' (List.mem_cons_of_mem _ hc), ?_⟩
        rw [List.find?_cons]
        simp [hxny, h2]

lemma dedupKeepFirst_keys_nodup (xs : List TypedRecord) :
    ∀ seen, ((dedupKeepFirst xs seen).map keyOfTyped).Nodup := by
  induction xs with
  | nil => intro seen; simp [dedupKeepFirst]
  | cons x ts ih =>
    intro seen
    simp only [dedupKeepFirst]
    by_cases h : keyOfTyped x ∈ seen
    · rw [if_pos h]
      exact ih seen
    · rw [if_neg h]
      simp only [List.map_cons, List.nodup_cons]
      refine ⟨?_, ih _⟩
      intro hc
      obtain ⟨y, hy, hky⟩ := List.mem_map.mp hc
      have hnotin := (dedupKeepFirst_spec ts _ y hy).1
      exact hnotin (by rw [hky]; exact List.mem_cons_self _ _)

lemma keyOfOut_attachMeta (t : TypedRecord) :
    keyOfOut (attachMeta t) = keyOfTyped t := rfl

lemma stripMeta_attachMeta (t : TypedRecord) :
    stripMeta (attachMeta t) = t := rfl

/-- Claim C8: a non-empty batch in which one of the three required source
columns (`SpatialDim`, `TimeDim`, `NumericValue`) is structurally absent —
no record of the batch carries the key — is rejected whole: the transform
returns the empty list without raising. -/
theorem c8_missing_columns_empty (raw : List RawRecord) (hne : raw ≠ [])
    (habs : (∀ r ∈ raw, r.SpatialDim = none) ∨ (∀ r ∈ raw, r.TimeDim = none) ∨
      (∀ r ∈ raw, r.NumericValue = none)) :
    transform_data raw = Except.ok [] := by
  have hreq : requiredColumnsPresent raw = false := by
    rcases habs with h | h | h
    · have ha : raw.any (fun r => r.SpatialDim.isSome) = false := by
        simp only [List.any_eq_false]
        intro r hr
        simp [h r hr]
      simp [requiredColumnsPresent, ha]
    · have ha : raw.any (fun r => r.TimeDim.isSome) = false := by
        simp only [List.any_eq_false]
        intro r hr
        simp [h r hr]
      simp [requiredColumnsPresent, ha]
    · have ha : raw.any (fun r => r.NumericValue.isSome) = false := by
        simp only [List.any_eq_false]
        intro r hr
        simp [h r hr]
      simp [requiredColumnsPresent, ha]
  have hemp : raw.isEmpty = false := List.isEmpty_eq_false.mpr hne
  simp [transform_data, hemp, hreq]

/-- A non-empty batch where no record carries `SpatialDim` (the column is
structurally absent), though some records have malformed years. -/
def c8Raw : List RawRecord :=
  [ { TimeDim := some (Val.int 2020), NumericValue := some (Val.int 70) },
    { TimeDim := some (Val.str "bad"), NumericValue := some (Val.int 71) } ]

theorem c8_missing_columns_empty_wit :
    transform_data c8Raw = Except.ok [] :=
  c8_missing_columns_empty c8Raw (by simp [c8Raw])
    (Or.inl (by intro r hr; simp [c8Raw] at hr; rcases hr with h | h <;> simp [h]))

/-- A raw record carrying the optional `Dim1` field. -/
def c6Raw : RawRecord :=
  { SpatialDim := some (Val.str "USA")
    TimeDim := some (Val.int 2020)
    NumericValue := some (Val.num (mkRat 157 2))
    Dim1 := some (Val.str "SEX_BTSX") }

/-- The record `transform_data` produces from `c6Raw`. -/
def c6Out : OutRecord :=
  { country_code := Val.str "USA"
    year := 2020
    value := mkRat 157 2
    dimension := some (Val.str "SEX_BTSX")
    indicator_code := INDICATOR_CODE
    indicator_name := INDICATOR_NAME
    source_url := SOURCE_URL }

/-- Claim C6 is false on the code: for a batch whose record carries `Dim1`,
the output record still contains the renamed `dimension` field — the
column is selected at `transform.py` line 72 and never dropped before
`to_dict`, so the output schema is not exactly the six canonical fields. -/
theorem c6_dimension_kept_cex :
    transform_data [c6Raw] = Except.ok [c6Out] ∧
    c6Out.dimension ≠ none :=
  ⟨by decide, by decide⟩

/-- Claim C6 amended: the transformer renames `Dim1` to `dimension` and
keeps it in its output rather than dropping it: when some input record
carries `Dim1`, every output record has a `dimension` field; only when no
input record carries `Dim1` is the output schema exactly the six canonical
fields. -/
theorem c6_dimension_field_behavior (raw : List RawRecord)
    (out : List OutRecord) (h : transform_data raw = Except.ok out) :
    (hasDim1 raw = false → ∀ o ∈ out, o.dimension = none) ∧
    (hasDim1 raw = true → ∀ o ∈ out, o.dimension.isSome = true) := by
  rcases transform_data_ok raw out h with h0 | h0
  · subst h0
    exact ⟨fun _ o ho => absurd ho (List.not_mem_nil o),
           fun _ o ho => absurd ho (List.not_mem_nil o)⟩
  · subst h0
    constructor
    · intro hd o ho
      obtain ⟨t, ht, hto⟩ := List.mem_map.mp ho
      have hts : t ∈ survivingRows raw := (dedupKeepFirst_sublist _ _).subset ht
      obtain ⟨r, _, hdim⟩ := survivingRows_dimension raw t hts
      rw [← hto]
      show t.dimension = none
      rw [hdim, hd]
      simp
    · intro hd o ho
      obtain ⟨t, ht, hto⟩ := List.mem_map.mp ho
      have hts : t ∈ survivingRows raw := (dedupKeepFirst_sublist _ _).subset ht
      obtain ⟨r, _, hdim⟩ := survivingRows_dimension raw t hts
      rw [← hto]
      show t.dimension.isSome = true
      rw [hdim, hd]
      simp

theorem c6_dimension_field_behavior_wit :
    transform_data [c6Raw] = Except.ok [c6Out] ∧
    hasDim1 [c6Raw] = true ∧
    (∀ o ∈ [c6Out], o.dimension.isSome = true) := by
  have h : transform_data [c6Raw] = Except.ok [c6Out] := by decide
  exact ⟨h, by decide,
    (c6_dimension_field_behavior [c6Raw] [c6Out] h).2 (by decide)⟩

/-- Claim C7: in the transformer's output, the dedup keys
`(country_code, year)` are pairwise distinct, the output is an
order-preserving sublist of the rows surviving the earlier filter stages,
and each output record is the *first* surviving row carrying its key — so
of two or more surviving records sharing a key, exactly the first
occurrence in input order is kept and all later ones are discarded. -/
theorem c7_dedup_keeps_first (raw : List RawRecord) (out : List OutRecord)
    (h : transform_data raw = Except.ok out) :
    (out.map keyOfOut).Nodup ∧
    (out.map stripMeta).Sublist (survivingRows raw) ∧
    (∀ o ∈ out,
      (survivingRows raw).find?
        (fun t => decide (keyOfTyped t = keyOfOut o)) = some (stripMeta o)) := by
  rcases transform_data_ok raw out h with h0 | h0
  · subst h0
    exact ⟨List.nodup_nil, List.nil_sublist _,
           fun o ho => absurd ho (List.not_mem_nil o)⟩
  · subst h0
    refine ⟨?_, ?_, ?_⟩
    · have hmm : ((dedupKeepFirst (survivingRows raw) []).map attachMeta).map keyOfOut =
          (dedupKeepFirst (survivingRows raw) []).map keyOfTyped := by
        rw [List.map_map]
        exact List.map_congr_left (fun t _ => keyOfOut_attachMeta t)
      rw [hmm]
      exact dedupKeepFirst_keys_nodup _ _
    · have hmm : ((dedupKeepFirst (survivingRows raw) []).map attachMeta).map stripMeta =
          dedupKeepFirst (survivingRows raw) [] := by
        rw [List.map_map]
        have : (fun t => stripMeta (attachMeta t)) = (fun t : TypedRecord => t) := by
          funext t
          exact stripMeta_attachMeta t
        rw [show stripMeta ∘ attachMeta = fun t : TypedRecord => t from this]
        exact List.map_id' _
      rw [hmm]
      exact dedupKeepFirst_sublist _ _
    · intro o ho
      obtain ⟨t, ht, hto⟩ := List.mem_map.mp ho
      have hspec := (dedupKeepFirst_spec (survivingRows raw) [] t ht).2
      rw [← hto, keyOfOut_attachMeta, stripMeta_attachMeta]
      exact hspec

/-- A batch with two surviving records sharing key `("USA", 2020)` (with
different values) and one with key `("CAN", 2020)`. -/
def c7Raw : List RawRecord :=
  [ { SpatialDim := some (Val.str "USA"), TimeDim := some (Val.int 2020),
      NumericValue := some (Val.int 78) },
    { SpatialDim := some (Val.str "USA"), TimeDim := some (Val.int 2020),
      NumericValue := some (Val.int 79) },
    { SpatialDim := some (Val.str "CAN"), TimeDim := some (Val.int 2020),
      NumericValue := some (Val.int 82) } ]

/-- What the transform keeps of `c7Raw`: the first `USA`/2020 record (value
78, not 79) and the `CAN`/2020 record, in input order. -/
def c7Out : List OutRecord :=
  [ { country_code := Val.str "USA", year := 2020, value := 78,
      dimension := none, indicator_code := INDICATOR_CODE,
      indicator_name := INDICATOR_NAME, source_url := SOURCE_URL },
    { country_code := Val.str "CAN", year := 2020, value := 82,
      dimension := none, indicator_code := INDICATOR_CODE,
      indicator_name := INDICATOR_NAME, source_url := SOURCE_URL } ]

theorem c7_dedup_keeps_first_wit :
    transform_data c7Raw = Except.ok c7Out ∧
    (c7Out.map keyOfOut).Nodup ∧
    (c7Out.map stripMeta).Sublist (survivingRows c7Raw) ∧
    (∀ o ∈ c7Out,
      (survivingRows c7Raw).find?
        (fun t => decide (keyOfTyped t = keyOfOut o)) = some (stripMeta o)) := by
  have h : transform_data c7Raw = Except.ok c7Out := by decide
  have hc := c7_dedup_keeps_first c7Raw c7Out h
  exact ⟨h, hc.1, hc.2.1, hc.2.2⟩

end WhoEtl
